import Mathlib

/-!
# AI-Fitness-Coach: shallow embedding and verification

This file embeds the data model and the operations of the AI fitness coach
repository (`models.py`, `database.py`, `output_generators.py`, `utils.py`,
`src/image_processing.py`) as executable Lean definitions, and proves the
specification claims about them.

Conventions of the embedding:
* Pydantic models become Lean structures with `String` fields; pydantic's
  guarantee that every declared field is present and has the declared type is
  represented by the Lean types themselves.
* The SQLite database becomes an explicit `DB` value holding the three tables
  as lists of row records plus the AUTOINCREMENT counters (SQLite row ids
  start at 1).  Each database function takes and returns the `DB` explicitly.
* SQLite's default BINARY collation compares the UTF-8 bytes of TEXT values;
  on valid UTF-8 this coincides with code-point lexicographic order, which is
  exactly `String.lt`/`String.le` in Lean, so `ORDER BY dp.day` is embedded as
  sorting with `String.le`.
* `created_at TIMESTAMP DEFAULT CURRENT_TIMESTAMP` is modelled by a `Nat`
  timestamp supplied to `save_plan_to_db` by its caller (the wall clock is
  outside the program); `ORDER BY created_at DESC` becomes a descending sort
  on that number.
* Python code that can raise and is wrapped in `try/except` returning a
  sentinel becomes a total function returning `Option`/`Except`.
-/

/-! ## Data model (`models.py`) -/

/-- `models.py` `class DailyMeal(BaseModel)`: one meal recommendation. -/
structure DailyMeal where
  suggestion : String
  calories : String
deriving DecidableEq, Repr

/-- `models.py` `class DailyPlan(BaseModel)`: a single day's training and
nutrition plan. -/
structure DailyPlan where
  day : String
  titles : String
  details : String
  breakfast : DailyMeal
  lunch : DailyMeal
  dinner : DailyMeal
deriving DecidableEq, Repr

/-- `models.py` `WeeklyPlan = List[DailyPlan]`. -/
abbrev WeeklyPlan := List DailyPlan

/-- `models.py` `class RunningPlan(BaseModel)`: the full plan. -/
structure RunningPlan where
  motivation : String
  feedback : String
  supplement_suggestion : String
  plan : List WeeklyPlan
deriving DecidableEq, Repr

/-! ## Structure validation (`output_generators.py`, lines 302-349)

In the Python source the function first checks `hasattr` for the four
declared fields, `isinstance(plan.plan, list)`, `isinstance(week, list)`,
`isinstance(day, DailyPlan)` and, per meal, `not meal or not
hasattr(meal, 'suggestion') or not hasattr(meal, 'calories')`.  On values of
the pydantic `RunningPlan` type every one of those checks succeeds (pydantic
guarantees the fields exist with the declared types, and `bool()` of a
`BaseModel` instance is `True`), so in the typed embedding they are the
constant `true` and the function reduces to the two length checks that can
actually fail. -/

/-- `validate_plan_structure(plan)` from `output_generators.py`. -/
def validate_plan_structure (plan : RunningPlan) : Bool :=
  -- `if not isinstance(plan.plan, list) or len(plan.plan) == 0: return False`
  if plan.plan.isEmpty then false
  else
    -- per week: `if not isinstance(week, list) or len(week) == 0: return False`;
    -- the per-day and per-meal checks always pass on typed values.
    plan.plan.all (fun week => !week.isEmpty)

/-! ## Database rows and state (`database.py`) -/

/-- A row of the `running_plan` table. -/
structure RunningPlanRow where
  id : Nat
  motivation : String
  feedback : String
  supplement_suggestion : String
  created_at : Nat
deriving DecidableEq, Repr

/-- A row of the `daily_plan` table. -/
structure DailyPlanRow where
  id : Nat
  running_plan_id : Nat
  day : String
  titles : String
  details : String
  week_number : Nat
deriving DecidableEq, Repr

/-- A row of the `daily_meal` table. -/
structure DailyMealRow where
  id : Nat
  daily_plan_id : Nat
  meal_type : String
  suggestion : String
  calories : String
deriving DecidableEq, Repr

/-- The SQLite database file: three tables plus the AUTOINCREMENT counters. -/
structure DB where
  running_plan : List RunningPlanRow
  daily_plan : List DailyPlanRow
  daily_meal : List DailyMealRow
  next_running_plan_id : Nat
  next_daily_plan_id : Nat
  next_daily_meal_id : Nat
deriving DecidableEq, Repr

/-- The freshly created schema (`create_database_schema`): empty tables,
AUTOINCREMENT counters at 1. -/
def emptyDB : DB :=
  { running_plan := [], daily_plan := [], daily_meal := []
    next_running_plan_id := 1, next_daily_plan_id := 1, next_daily_meal_id := 1 }

/-! ## `save_plan_to_db` (`database.py`, lines 72-118) -/

/-- One `INSERT INTO daily_meal (daily_plan_id, meal_type, suggestion,
calories) VALUES (?, ?, ?, ?)`. -/
def insertMeal (dpId : Nat) (ty : String) (m : DailyMeal) (db : DB) : DB :=
  { db with
    daily_meal := db.daily_meal ++
      [{ id := db.next_daily_meal_id, daily_plan_id := dpId, meal_type := ty,
         suggestion := m.suggestion, calories := m.calories }]
    next_daily_meal_id := db.next_daily_meal_id + 1 }

/-- The body of the inner `for daily in weekly_schedule` loop: one
`INSERT INTO daily_plan` followed by the `for meal_type in ['breakfast',
'lunch', 'dinner']` loop. -/
def insertDaily (rpId weekNum : Nat) (d : DailyPlan) (db : DB) : DB :=
  let dpId := db.next_daily_plan_id
  let db1 : DB :=
    { db with
      daily_plan := db.daily_plan ++
        [{ id := dpId, running_plan_id := rpId, day := d.day, titles := d.titles,
           details := d.details, week_number := weekNum }]
      next_daily_plan_id := dpId + 1 }
  insertMeal dpId "dinner" d.dinner
    (insertMeal dpId "lunch" d.lunch (insertMeal dpId "breakfast" d.breakfast db1))

/-- The body of the outer `for week_num, weekly_schedule in
enumerate(plan.plan, start=1)` loop. -/
def insertWeek (rpId weekNum : Nat) (week : List DailyPlan) (db : DB) : DB :=
  week.foldl (fun db d => insertDaily rpId weekNum d db) db

/-- `save_plan_to_db(plan, db_path)`: inserts the `running_plan` row (the
database assigns `created_at`, modelled by the `now` argument), then every
day of every week with its 1-based `week_number`, then three meal rows per
day; returns the new database state and `running_plan_id`. -/
def save_plan_to_db (plan : RunningPlan) (now : Nat) (db : DB) : DB × Nat :=
  let rpId := db.next_running_plan_id
  let db1 : DB :=
    { db with
      running_plan := db.running_plan ++
        [{ id := rpId, motivation := plan.motivation, feedback := plan.feedback,
           supplement_suggestion := plan.supplement_suggestion, created_at := now }]
      next_running_plan_id := rpId + 1 }
  let db2 := (plan.plan.enumFrom 1).foldl
    (fun db wk => insertWeek rpId wk.1 wk.2 db) db1
  (db2, rpId)

/-! ## An executable stable sort for the SQL ORDER BY clauses

SQL's ORDER BY guarantees only that the output is a sorted permutation of
the result set; the embedding uses a structurally recursive insertion sort
(so that concrete databases evaluate inside the kernel).  Its two
characterizing properties — the output is a permutation of the input and is
sorted whenever the comparison is transitive and total — are proved below
and are all the development relies on. -/

def orderedInsertBy {α : Type} (le : α → α → Bool) (a : α) :
    List α → List α
  | [] => [a]
  | b :: l => if le a b then a :: b :: l else b :: orderedInsertBy le a l

def sortBy {α : Type} (le : α → α → Bool) : List α → List α
  | [] => []
  | a :: l => orderedInsertBy le a (sortBy le l)

/-! ## `load_plan_from_db` (`database.py`, lines 120-195) -/

/-- One `LEFT JOIN daily_meal dmK ON dp.id = dmK.daily_plan_id AND
dmK.meal_type = ty`: the list of matched rows, or the single null row when
nothing matches. -/
def mealMatches (meals : List DailyMealRow) (dpId : Nat) (ty : String) :
    List (Option DailyMealRow) :=
  match meals.filter (fun m => m.daily_plan_id == dpId && m.meal_type == ty) with
  | [] => [none]
  | ms => ms.map some

/-- One output row of the SELECT of `load_plan_from_db`: the `daily_plan`
columns plus the (possibly null) matched breakfast, lunch and dinner rows. -/
structure JoinedRow where
  dp : DailyPlanRow
  breakfast : Option DailyMealRow
  lunch : Option DailyMealRow
  dinner : Option DailyMealRow
deriving DecidableEq, Repr

/-- The rows the triple LEFT JOIN produces for one `daily_plan` row: one
output row per combination of matches. -/
def joinDaily (meals : List DailyMealRow) (dp : DailyPlanRow) : List JoinedRow :=
  (mealMatches meals dp.id "breakfast").flatMap (fun b =>
    (mealMatches meals dp.id "lunch").flatMap (fun l =>
      (mealMatches meals dp.id "dinner").map (fun dn =>
        { dp := dp, breakfast := b, lunch := l, dinner := dn })))

/-- Code-point lexicographic comparison of character lists: the order SQLite's
BINARY collation gives TEXT values holding valid UTF-8. -/
def charListLe : List Char → List Char → Bool
  | [], _ => true
  | _ :: _, [] => false
  | a :: as, b :: bs =>
    if a.toNat < b.toNat then true
    else if b.toNat < a.toNat then false
    else charListLe as bs

/-- Code-point lexicographic comparison of strings. -/
def strLe (a b : String) : Bool := charListLe a.data b.data

/-- `ORDER BY dp.week_number, dp.day` (BINARY collation = code-point order on
valid UTF-8). -/
def rowLe (a b : JoinedRow) : Bool :=
  a.dp.week_number < b.dp.week_number ||
    (a.dp.week_number == b.dp.week_number && strLe a.dp.day b.dp.day)

/-- The full SELECT of `load_plan_from_db`: filter `daily_plan` by
`running_plan_id`, LEFT JOIN the three meals, sort by `(week_number, day)`. -/
def queryRows (db : DB) (planId : Nat) : List JoinedRow :=
  sortBy rowLe ((db.daily_plan.filter
    (fun dp => dp.running_plan_id == planId)).flatMap (joinDaily db.daily_meal))

/-- Rebuilding one `DailyPlan` (with its week number) from one fetched row.
A NULL meal column makes `DailyMeal(suggestion=None, calories=None)` raise a
pydantic validation error, which the enclosing `try` turns into a `None`
result for the whole load: hence `Option`. -/
def rowToDailyPlan (r : JoinedRow) : Option (Nat × DailyPlan) :=
  match r.breakfast, r.lunch, r.dinner with
  | some b, some l, some dn =>
    some (r.dp.week_number,
      { day := r.dp.day, titles := r.dp.titles, details := r.dp.details,
        breakfast := { suggestion := b.suggestion, calories := b.calories },
        lunch := { suggestion := l.suggestion, calories := l.calories },
        dinner := { suggestion := dn.suggestion, calories := dn.calories } })
  | _, _, _ => none

/-- The `for row in daily_data` reconstruction loop up to the point where the
`DailyPlan` values exist: `none` when any row raises. -/
def convRows : List JoinedRow → Option (List (Nat × DailyPlan))
  | [] => some []
  | r :: rs =>
    match rowToDailyPlan r, convRows rs with
    | some x, some xs => some (x :: xs)
    | _, _ => none

/-- The insertion-ordered Python dict `weeks`: appending a value under a key
(`weeks[week_num].append(daily_plan)`, creating the key at the back on first
use). -/
def dictAppend (m : List (Nat × List DailyPlan)) (k : Nat) (v : DailyPlan) :
    List (Nat × List DailyPlan) :=
  match m with
  | [] => [(k, [v])]
  | (k1, vs) :: rest =>
    if k1 == k then (k1, vs ++ [v]) :: rest else (k1, vs) :: dictAppend rest k v

/-- Dict lookup (`weeks[week_num]`); keys produced by `dictAppend` always
exist, so the default is never reached on the uses below. -/
def dictGet (m : List (Nat × List DailyPlan)) (k : Nat) : List DailyPlan :=
  match m.find? (fun e => e.1 == k) with
  | some e => e.2
  | none => []

/-- `load_plan_from_db(plan_id, db_path)`: fetch the `running_plan` row
(`None` → not found), fetch and join the day rows, group them into the
`weeks` dict in row order, then emit the weeks by `sorted(weeks.keys())`. -/
def load_plan_from_db (planId : Nat) (db : DB) : Option RunningPlan :=
  match db.running_plan.find? (fun r => r.id == planId) with
  | none => none
  | some rp =>
    match convRows (queryRows db planId) with
    | none => none
    | some records =>
      let weeks := records.foldl (fun m r => dictAppend m r.1 r.2) []
      let sortedKeys := sortBy (fun a b => a ≤ b) (weeks.map Prod.fst)
      some { motivation := rp.motivation, feedback := rp.feedback,
             supplement_suggestion := rp.supplement_suggestion,
             plan := sortedKeys.map (dictGet weeks) }

/-! ## `list_all_plans` (`database.py`, lines 197-231) -/

/-- One element of the list returned by `list_all_plans`. -/
structure PlanSummary where
  id : Nat
  motivation : String
  created_at : Nat
deriving DecidableEq, Repr

/-- The summary dict built for one row:
`plan[1][:50] + "..." if len(plan[1]) > 50 else plan[1]`. -/
def summarize (r : RunningPlanRow) : PlanSummary :=
  { id := r.id
    motivation :=
      if r.motivation.length > 50 then r.motivation.take 50 ++ "..."
      else r.motivation
    created_at := r.created_at }

/-- `list_all_plans(db_path)`: `SELECT id, motivation, created_at FROM
running_plan ORDER BY created_at DESC`, then summarize each row. -/
def list_all_plans (db : DB) : List PlanSummary :=
  (sortBy (fun a b => b.created_at ≤ a.created_at) db.running_plan).map summarize

/-! ## `delete_plan` (`database.py`, lines 233-265) -/

/-- `delete_plan(plan_id, db_path)`: deletes the meal rows whose
`daily_plan_id` is `IN (SELECT id FROM daily_plan WHERE running_plan_id = ?)`,
then the `daily_plan` rows, then the `running_plan` row, and returns `True`
(the `except` branch is unreachable in the memory model). -/
def delete_plan (planId : Nat) (db : DB) : DB × Bool :=
  let dpIds := (db.daily_plan.filter (fun dp => dp.running_plan_id == planId)).map
    (fun dp => dp.id)
  let db1 : DB :=
    { db with daily_meal := db.daily_meal.filter (fun m => !(dpIds.contains m.daily_plan_id)) }
  let db2 : DB :=
    { db1 with daily_plan := db1.daily_plan.filter (fun dp => !(dp.running_plan_id == planId)) }
  let db3 : DB :=
    { db2 with running_plan := db2.running_plan.filter (fun r => !(r.id == planId)) }
  (db3, true)

/-! ## HTML generation (`output_generators.py`, lines 10-72)

The Python function accumulates the document with `html += ...`; the
embedding builds the same string by concatenation.  The single-quoted
f-strings in the week loop contain the two-character sequence backslash-`n`
(written `\\n` in the Python source), not a newline; the embedding keeps the
same two characters.  The `try/except` wrapper is unreachable on typed
values (pure string formatting cannot raise), so it is omitted. -/

/-- The `html += f"""      <div class="day"> ... """` block for one day. -/
def dayHtml (d : DailyPlan) : String :=
  "      <div class=\"day\">\n            <div class=\"day-title\">" ++ d.day ++
  " - " ++ d.titles ++ "</div>\n            <div class=\"details\">" ++ d.details ++
  "</div>\n            <div class=\"meal_plan\">\n            <h4>Nutrition Plan</h4>\n            <ul>\n                <li><strong>Breakfast:</strong> " ++
  d.breakfast.suggestion ++ " - (" ++ d.breakfast.calories ++
  " kcal)</li>\n                <li><strong>Lunch:</strong> " ++
  d.lunch.suggestion ++ " - (" ++ d.lunch.calories ++
  " kcal)</li>\n                <li><strong>Dinner:</strong> " ++
  d.dinner.suggestion ++ " - (" ++ d.dinner.calories ++
  " kcal)</li>\n            </ul>\n            </div>\n        </div>\n    "

/-- One iteration of the `for week_idx, weekly in enumerate(plan.plan,
start=1)` loop. -/
def weekHtml (weekIdx : Nat) (weekly : List DailyPlan) : String :=
  "    <div class=\"week\">\\n" ++
  "      <h2>Week " ++ toString weekIdx ++ "</h2>\\n" ++
  String.join (weekly.map dayHtml) ++
  "    </div>\\n"

/-- `generate_html_training_plan(plan)`. -/
def generate_html_training_plan (plan : RunningPlan) : String :=
  "\n<!DOCTYPE html>\n<html lang=\"en\">\n<head>\n<meta charset=\"UTF-8\">\n<title>Your Running Plan</title>\n<link rel=\"stylesheet\" href=\"style.css\">\n</head>\n" ++
  ("\n<body>\n<header class=\"plan-header\">\n    <h1>" ++ plan.motivation ++
   "</h1>\n    <p class=\"plan-feedback\">" ++ plan.feedback ++
   "</p>\n    <p class=\"plan-supplements\">" ++ plan.supplement_suggestion ++
   "</p>\n</header>\n") ++
  "<div class=\"week-grid\">" ++
  String.join ((plan.plan.enumFrom 1).map (fun wk => weekHtml wk.1 wk.2)) ++
  "  </div>\n</body>\n</html>\n"

/-! ## Image processing (`utils.py` lines 11-102, identical logic in
`src/image_processing.py`)

The file system and the PIL library are external collaborators; the
embedding abstracts them as an environment:
* `fileBytes path = some bs` iff the file exists (`os.path.exists`) with
  contents `bs` (bytes, each < 256);
* `openMeta bs = some ((w, h), format, mode)` iff `PIL.Image.open` succeeds
  on those bytes, yielding that metadata; `none` iff it raises;
* `verifyOk bs = true` iff `img.verify()` succeeds on the opened image.
Raising Python functions become `Except`; the error dict of
`get_image_info` keeps only the fact that it is the error case (its
`str(e)` payload comes from PIL and is not modelled). -/

structure PILEnv where
  fileBytes : String → Option (List Nat)
  openMeta : List Nat → Option ((Nat × Nat) × String × String)
  verifyOk : List Nat → Bool

/-- The standard base64 alphabet. -/
def base64Chars : List Char :=
  "ABCDEFGHIJKLMNOPQRSTUVWXYZabcdefghijklmnopqrstuvwxyz0123456789+/".data

/-- Character for a 6-bit group. -/
def b64c (n : Nat) : Char := base64Chars.getD n 'A'

/-- RFC 4648 base64 of a byte sequence (`base64.b64encode(...).decode()`). -/
def base64Encode : List Nat → String
  | [] => ""
  | [b1] =>
    String.mk [b64c (b1 % 256 / 4), b64c (b1 % 4 * 16)] ++ "=="
  | [b1, b2] =>
    String.mk [b64c (b1 % 256 / 4), b64c (b1 % 4 * 16 + b2 % 256 / 16),
      b64c (b2 % 16 * 4)] ++ "="
  | b1 :: b2 :: b3 :: rest =>
    String.mk [b64c (b1 % 256 / 4), b64c (b1 % 4 * 16 + b2 % 256 / 16),
      b64c (b2 % 16 * 4 + b3 % 256 / 64), b64c (b3 % 64)] ++ base64Encode rest

/-- `encode_image(image_path)`: base64 of the file's bytes, raising
`FileNotFoundError` (as `Except.error`) when the file is missing. -/
def encode_image (env : PILEnv) (image_path : String) : Except String String :=
  match env.fileBytes image_path with
  | none => .error ("Image file not found: " ++ image_path)
  | some bs => .ok (base64Encode bs)

/-- `validate_image(image_path)`: `False` when the path does not exist, when
`Image.open` raises, or when `img.verify()` raises; `True` otherwise. -/
def validate_image (env : PILEnv) (image_path : String) : Bool :=
  match env.fileBytes image_path with
  | none => false
  | some bs =>
    match env.openMeta bs with
    | none => false
    | some _ => env.verifyOk bs

/-- Result of `get_image_info`: the metadata dict, or the `{"error": ...}`
dict. -/
inductive ImageInfo where
  | info (size : Nat × Nat) (format : String) (mode : String) (file_size : Nat)
  | err
deriving DecidableEq, Repr

/-- `get_image_info(image_path)`. -/
def get_image_info (env : PILEnv) (image_path : String) : ImageInfo :=
  match env.fileBytes image_path with
  | none => .err
  | some bs =>
    match env.openMeta bs with
    | none => .err
    | some m => .info m.1 m.2.1 m.2.2 bs.length

/-- The dict returned by `prepare_image_for_analysis`. -/
structure PreparedImage where
  base64_image : String
  image_info : ImageInfo
  data_url : String
deriving DecidableEq, Repr

/-- `prepare_image_for_analysis(image_path)`: raises `ValueError` when
`validate_image` is false, otherwise returns metadata, base64 encoding and
the data url built from that encoding. -/
def prepare_image_for_analysis (env : PILEnv) (image_path : String) :
    Except String PreparedImage :=
  if validate_image env image_path then
    match encode_image env image_path with
    | .error e => .error e
    | .ok b64 =>
      .ok { base64_image := b64, image_info := get_image_info env image_path,
            data_url := "data:image/jpeg;base64," ++ b64 }
  else .error ("Invalid or unreadable image: " ++ image_path)

/-! ## Helper definitions for the verification -/

/-- `VerbatimIn x s`: the text `x` appears character-for-character,
contiguously and unmodified, inside `s`. -/
def VerbatimIn (x s : String) : Prop := x.data <:+: s.data

/-- The `(week_number, day)` records of a list of weeks, in authoring order,
week numbers counted from `s`. -/
def planRecordsFrom (s : Nat) (weeks : List WeeklyPlan) : List (Nat × DailyPlan) :=
  (weeks.enumFrom s).flatMap (fun wk => wk.2.map (fun d => (wk.1, d)))

/-- The `(week_number, day)` records of a plan, in authoring order, with the
1-based week numbers `save_plan_to_db` stores. -/
def planRecords (p : RunningPlan) : List (Nat × DailyPlan) :=
  planRecordsFrom 1 p.plan

/-- The three meal rows `save_plan_to_db` inserts for one day. -/
def mealRowsOf (dpId mealStart : Nat) (d : DailyPlan) : List DailyMealRow :=
  [{ id := mealStart, daily_plan_id := dpId, meal_type := "breakfast",
     suggestion := d.breakfast.suggestion, calories := d.breakfast.calories },
   { id := mealStart + 1, daily_plan_id := dpId, meal_type := "lunch",
     suggestion := d.lunch.suggestion, calories := d.lunch.calories },
   { id := mealStart + 2, daily_plan_id := dpId, meal_type := "dinner",
     suggestion := d.dinner.suggestion, calories := d.dinner.calories }]

/-- The `daily_plan` and `daily_meal` rows `save_plan_to_db` generates for a
record list, with ids counted from `dpStart` and `mealStart`. -/
def genRows (rpId dpStart mealStart : Nat) :
    List (Nat × DailyPlan) → List DailyPlanRow × List DailyMealRow
  | [] => ([], [])
  | (w, d) :: rest =>
    let g := genRows rpId (dpStart + 1) (mealStart + 3) rest
    ({ id := dpStart, running_plan_id := rpId, day := d.day, titles := d.titles,
       details := d.details, week_number := w } :: g.1,
     mealRowsOf dpStart mealStart d ++ g.2)

/-- Well-formedness of a database state: every stored id is below the
corresponding AUTOINCREMENT counter.  It holds for `emptyDB` and is
preserved by the operations; `save_plan_to_db` needs it so that the fresh
ids cannot collide with existing rows. -/
def DBinv (db : DB) : Prop :=
  (∀ r ∈ db.running_plan, r.id < db.next_running_plan_id) ∧
  (∀ dp ∈ db.daily_plan, dp.running_plan_id < db.next_running_plan_id) ∧
  (∀ m ∈ db.daily_meal, m.daily_plan_id < db.next_daily_plan_id)

/-- The day records stored for a plan id, paired with their stored
`week_number`, in table order (the SELECT of `load_plan_from_db` without its
ORDER BY); `none` when a NULL meal makes reconstruction raise. -/
def storedRecords (db : DB) (planId : Nat) : Option (List (Nat × DailyPlan)) :=
  convRows ((db.daily_plan.filter
    (fun dp => dp.running_plan_id == planId)).flatMap (joinDaily db.daily_meal))

/-- A concrete stored plan used to instantiate the load-grouping claim: one
`running_plan` row whose two day rows were inserted out of label order. -/
def dbC2 : DB :=
  { running_plan := [{ id := 1, motivation := "go", feedback := "fb",
                       supplement_suggestion := "supp", created_at := 7 }],
    daily_plan := [{ id := 1, running_plan_id := 1, day := "Tuesday",
                     titles := "Rest", details := "easy", week_number := 1 },
                   { id := 2, running_plan_id := 1, day := "Monday",
                     titles := "Run", details := "5k", week_number := 1 }],
    daily_meal := [{ id := 1, daily_plan_id := 1, meal_type := "breakfast",
                     suggestion := "oats", calories := "300" },
                   { id := 2, daily_plan_id := 1, meal_type := "lunch",
                     suggestion := "rice", calories := "500" },
                   { id := 3, daily_plan_id := 1, meal_type := "dinner",
                     suggestion := "fish", calories := "400" },
                   { id := 4, daily_plan_id := 2, meal_type := "breakfast",
                     suggestion := "eggs", calories := "350" },
                   { id := 5, daily_plan_id := 2, meal_type := "lunch",
                     suggestion := "soup", calories := "450" },
                   { id := 6, daily_plan_id := 2, meal_type := "dinner",
                     suggestion := "tofu", calories := "380" }],
    next_running_plan_id := 2, next_daily_plan_id := 3,
    next_daily_meal_id := 7 }

/-- The plan `load_plan_from_db` reconstructs from `dbC2` (days re-sorted by
label within the week). -/
def qC2 : RunningPlan :=
  { motivation := "go", feedback := "fb", supplement_suggestion := "supp",
    plan := [[{ day := "Monday", titles := "Run", details := "5k",
                breakfast := { suggestion := "eggs", calories := "350" },
                lunch := { suggestion := "soup", calories := "450" },
                dinner := { suggestion := "tofu", calories := "380" } },
              { day := "Tuesday", titles := "Rest", details := "easy",
                breakfast := { suggestion := "oats", calories := "300" },
                lunch := { suggestion := "rice", calories := "500" },
                dinner := { suggestion := "fish", calories := "400" } }]] }

/-- A concrete two-week plan whose first week's days are not in label
order, used to instantiate the round-trip claim. -/
def planC1 : RunningPlan :=
  { motivation := "go far", feedback := "nice pace",
    supplement_suggestion := "iron",
    plan := [[{ day := "Tuesday", titles := "Rest", details := "off",
                breakfast := { suggestion := "oats", calories := "300" },
                lunch := { suggestion := "rice", calories := "500" },
                dinner := { suggestion := "fish", calories := "400" } },
              { day := "Monday", titles := "Run", details := "5k",
                breakfast := { suggestion := "eggs", calories := "350" },
                lunch := { suggestion := "soup", calories := "450" },
                dinner := { suggestion := "tofu", calories := "380" } }],
             [{ day := "Monday", titles := "Long run", details := "10k",
                breakfast := { suggestion := "toast", calories := "320" },
                lunch := { suggestion := "pasta", calories := "600" },
                dinner := { suggestion := "salad", calories := "250" } }]] }

/-! ## Theorems -/

theorem orderedInsertBy_perm {α : Type} (le : α → α → Bool) (a : α)
    (l : List α) : List.Perm (orderedInsertBy le a l) (a :: l) := by
  induction l with
  | nil => exact List.Perm.refl _
  | cons b l ih =>
    unfold orderedInsertBy
    by_cases h : le a b
    · rw [if_pos h]
    · rw [if_neg h]
      exact (ih.cons b).trans (List.Perm.swap a b l)

theorem sortBy_perm {α : Type} (le : α → α → Bool) (l : List α) :
    List.Perm (sortBy le l) l := by
  induction l with
  | nil => exact List.Perm.refl _
  | cons a l ih =>
    exact (orderedInsertBy_perm le a (sortBy le l)).trans (ih.cons a)

theorem mem_sortBy {α : Type} {le : α → α → Bool} {x : α} {l : List α} :
    x ∈ sortBy le l ↔ x ∈ l :=
  (sortBy_perm le l).mem_iff

theorem pairwise_orderedInsertBy {α : Type} {le : α → α → Bool}
    (trans : ∀ a b c, le a b → le b c → le a c)
    (total : ∀ a b, le a b || le b a) (a : α) {l : List α}
    (h : l.Pairwise (fun x y => le x y)) :
    (orderedInsertBy le a l).Pairwise (fun x y => le x y) := by
  induction l with
  | nil => simp [orderedInsertBy]
  | cons b l ih =>
    rw [List.pairwise_cons] at h
    obtain ⟨hb, hl⟩ := h
    unfold orderedInsertBy
    by_cases hab : le a b
    · rw [if_pos hab]
      rw [List.pairwise_cons]
      refine ⟨?_, List.pairwise_cons.mpr ⟨hb, hl⟩⟩
      intro x hx
      rcases List.mem_cons.mp hx with rfl | hx
      · exact hab
      · exact trans a b x hab (hb x hx)
    · rw [if_neg hab]
      rw [List.pairwise_cons]
      refine ⟨?_, ih hl⟩
      intro x hx
      rcases (orderedInsertBy_perm le a l).mem_iff.mp hx with h2
      rcases List.mem_cons.mp h2 with rfl | hx2
      · have := total x b
        rcases Bool.or_eq_true _ _ |>.mp this with h3 | h3
        · exact absurd h3 hab
        · exact h3
      · exact hb x hx2

theorem pairwise_sortBy {α : Type} {le : α → α → Bool}
    (trans : ∀ a b c, le a b → le b c → le a c)
    (total : ∀ a b, le a b || le b a) (l : List α) :
    (sortBy le l).Pairwise (fun x y => le x y) := by
  induction l with
  | nil => simp [sortBy]
  | cons a l ih => exact pairwise_orderedInsertBy trans total a ih

theorem charListLe_total : ∀ as bs, charListLe as bs || charListLe bs as := by
  intro as
  induction as with
  | nil => intro bs; simp [charListLe]
  | cons a as ih =>
    intro bs
    cases bs with
    | nil => simp [charListLe]
    | cons b bs =>
      unfold charListLe
      by_cases h1 : a.toNat < b.toNat
      · simp [h1]
      · by_cases h2 : b.toNat < a.toNat
        · simp [h1, h2]
        · simp only [h1, h2, if_false]
          exact ih bs

theorem charListLe_trans :
    ∀ as bs cs, charListLe as bs → charListLe bs cs → charListLe as cs := by
  intro as
  induction as with
  | nil => intro bs cs h1 h2; simp [charListLe]
  | cons a as ih =>
    intro bs cs h1 h2
    cases bs with
    | nil => simp [charListLe] at h1
    | cons b bs =>
      cases cs with
      | nil => simp [charListLe] at h2
      | cons c cs =>
        unfold charListLe at h1 h2 ⊢
        by_cases hab : a.toNat < b.toNat
        · by_cases hbc : b.toNat < c.toNat
          · simp [show a.toNat < c.toNat by omega]
          · by_cases hcb : c.toNat < b.toNat
            · simp [hbc, hcb] at h2
            · simp [show a.toNat < c.toNat by omega]
        · by_cases hba : b.toNat < a.toNat
          · simp [hab, hba] at h1
          · by_cases hbc : b.toNat < c.toNat
            · simp [show a.toNat < c.toNat by omega]
            · by_cases hcb : c.toNat < b.toNat
              · simp [hbc, hcb] at h2
              · have hac : ¬ a.toNat < c.toNat := by omega
                have hca : ¬ c.toNat < a.toNat := by omega
                simp only [hac, hca, if_false] at *
                simp only [hab, hba, if_false] at h1
                simp only [hbc, hcb, if_false] at h2
                exact ih bs cs h1 h2

theorem strLe_total (a b : String) : strLe a b || strLe b a :=
  charListLe_total a.data b.data

theorem strLe_trans {a b c : String} (h1 : strLe a b) (h2 : strLe b c) :
    strLe a c :=
  charListLe_trans a.data b.data c.data h1 h2


theorem validate_plan_structure_iff (p : RunningPlan) :
    validate_plan_structure p = true ↔
      (p.plan ≠ [] ∧ ∀ w ∈ p.plan, w ≠ []) := by
  unfold validate_plan_structure
  split
  · next h => simp_all [List.isEmpty_iff]
  · next h => simp_all [List.isEmpty_iff]

/-- **C4.** `validate_plan_structure` returns false exactly for the plans
that break the §3 invariants representable in the typed data model: an empty
`plan` sequence or a week with zero days.  It returns true for every plan
satisfying the invariants; days lacking one of the three meals do not exist
as values of the pydantic `RunningPlan` type, so every represented day has
all three meals. -/
theorem claim_C4_validate_plan_structure (p : RunningPlan) :
    validate_plan_structure p = true ↔
      (p.plan ≠ [] ∧ ∀ w ∈ p.plan, w ≠ []) :=
  validate_plan_structure_iff p

/-- **C10.** `delete_plan` returns success for every id on an accessible
database: it performs no existence check, so deleting a nonexistent plan is
indistinguishable from deleting an existing one. -/
theorem claim_C10_delete_always_succeeds (planId : Nat) (db : DB) :
    (delete_plan planId db).2 = true := rfl

/-- **C7.** `validate_image` is a total boolean function (the source wraps
everything in `try/except` returning `False`): it returns true iff the file
exists and its bytes are decodable as a raster image (`Image.open` succeeds
and `img.verify()` passes); in particular it is false for a nonexistent path
and for a path holding non-image bytes. -/
theorem claim_C7_validate_image_total_iff (env : PILEnv) (image_path : String) :
    (validate_image env image_path = true ↔
      ∃ bs, env.fileBytes image_path = some bs ∧
        (env.openMeta bs).isSome ∧ env.verifyOk bs = true) ∧
    (env.fileBytes image_path = none → validate_image env image_path = false) ∧
    (∀ bs, env.fileBytes image_path = some bs → env.openMeta bs = none →
      validate_image env image_path = false) := by
  refine ⟨?_, ?_, ?_⟩
  · unfold validate_image
    cases hf : env.fileBytes image_path with
    | none => simp
    | some bs =>
      cases ho : env.openMeta bs with
      | none => simp [ho]
      | some m => simp [ho]
  · intro h; simp [validate_image, h]
  · intro bs hf ho; simp [validate_image, hf, ho]

/-- **C6.** `prepare_image_for_analysis` fails with the "invalid image"
condition exactly when `validate_image` is false; when it succeeds it
returns the base64 encoding of the file's bytes, the image metadata, and a
data-url built from that same base64 encoding. -/
theorem claim_C6_prepare_image (env : PILEnv) (image_path : String) :
    (validate_image env image_path = false →
      prepare_image_for_analysis env image_path =
        .error ("Invalid or unreadable image: " ++ image_path)) ∧
    (validate_image env image_path = true →
      ∃ bs, env.fileBytes image_path = some bs ∧
        prepare_image_for_analysis env image_path =
          .ok { base64_image := base64Encode bs,
                image_info := get_image_info env image_path,
                data_url := "data:image/jpeg;base64," ++ base64Encode bs }) := by
  constructor
  · intro h
    simp [prepare_image_for_analysis, h]
  · intro h
    obtain ⟨bs, hbs⟩ : ∃ bs, env.fileBytes image_path = some bs := by
      unfold validate_image at h
      cases hf : env.fileBytes image_path with
      | none => rw [hf] at h; exact absurd h (by simp)
      | some bs => exact ⟨bs, rfl⟩
    exact ⟨bs, hbs, by simp [prepare_image_for_analysis, h, encode_image, hbs]⟩

/-- **C9.** When the `running_plan` row exists but no `daily_plan` rows
reference it, `load_plan_from_db` does not report not-found: it returns a
plan with an empty week sequence, which fails `validate_plan_structure` —
the §3 non-emptiness invariant is not re-established by load. -/
theorem claim_C9_load_empty_weeks (db : DB) (planId : Nat) (r : RunningPlanRow)
    (hfind : db.running_plan.find? (fun x => x.id == planId) = some r)
    (hdays : db.daily_plan.filter (fun dp => dp.running_plan_id == planId) = []) :
    load_plan_from_db planId db =
      some { motivation := r.motivation, feedback := r.feedback,
             supplement_suggestion := r.supplement_suggestion, plan := [] } ∧
    validate_plan_structure
      { motivation := r.motivation, feedback := r.feedback,
        supplement_suggestion := r.supplement_suggestion, plan := [] } = false := by
  constructor
  · unfold load_plan_from_db queryRows
    rw [hfind, hdays]
    simp [convRows, sortBy]
  · rfl

/-- Closed witness for C9: a database holding one `running_plan` row and no
day rows. -/
theorem claim_C9_witness :
    load_plan_from_db 1
        { running_plan := [{ id := 1, motivation := "m", feedback := "f",
                             supplement_suggestion := "s", created_at := 0 }],
          daily_plan := [], daily_meal := [],
          next_running_plan_id := 2, next_daily_plan_id := 1,
          next_daily_meal_id := 1 } =
      some { motivation := "m", feedback := "f",
             supplement_suggestion := "s", plan := [] } ∧
    validate_plan_structure
      { motivation := "m", feedback := "f",
        supplement_suggestion := "s", plan := [] } = false :=
  claim_C9_load_empty_weeks
    { running_plan := [{ id := 1, motivation := "m", feedback := "f",
                         supplement_suggestion := "s", created_at := 0 }],
      daily_plan := [], daily_meal := [],
      next_running_plan_id := 2, next_daily_plan_id := 1, next_daily_meal_id := 1 }
    1
    { id := 1, motivation := "m", feedback := "f",
      supplement_suggestion := "s", created_at := 0 }
    (by rfl) (by rfl)

/-- **C8.** `list_all_plans` returns one summary per stored plan, ordered
newest-first by creation timestamp, and each summary's motivation is the
stored motivation unchanged when at most 50 characters long, else its first
50 characters followed by an ellipsis. -/
theorem claim_C8_list_all_plans (db : DB) :
    List.Perm (list_all_plans db) (db.running_plan.map summarize) ∧
    (list_all_plans db).Pairwise (fun a b => b.created_at ≤ a.created_at) ∧
    ∀ r ∈ db.running_plan, ∃ s ∈ list_all_plans db,
      s.id = r.id ∧ s.created_at = r.created_at ∧
      s.motivation = (if r.motivation.length ≤ 50 then r.motivation
                      else r.motivation.take 50 ++ "...") := by
  refine ⟨?_, ?_, ?_⟩
  · exact (sortBy_perm _ db.running_plan).map summarize
  · have hs := @pairwise_sortBy RunningPlanRow
      (fun a b : RunningPlanRow => decide (b.created_at ≤ a.created_at))
      (fun a b c hab hbc => by
        simp only [decide_eq_true_eq] at *
        exact Nat.le_trans hbc hab)
      (fun a b => by
        simp only [Bool.or_eq_true, decide_eq_true_eq]
        exact Nat.le_total b.created_at a.created_at)
      db.running_plan
    unfold list_all_plans
    rw [List.pairwise_map]
    exact hs.imp (fun h => by simpa using h)
  · intro r hr
    refine ⟨summarize r, List.mem_map_of_mem _ (mem_sortBy.mpr hr),
      rfl, rfl, ?_⟩
    by_cases h : r.motivation.length ≤ 50
    · have h2 : ¬ r.motivation.length > 50 := by omega
      simp [summarize, h, h2]
    · have h2 : r.motivation.length > 50 := by omega
      simp [summarize, h, h2]

/-! ### Verbatim-substring machinery for the HTML renderer -/

/-- `VerbatimIn` is exactly "s splits as a ++ x ++ b". -/
theorem verbatimIn_iff (x s : String) :
    VerbatimIn x s ↔ ∃ a b : String, s = a ++ x ++ b := by
  constructor
  · rintro ⟨a, b, h⟩
    refine ⟨⟨a⟩, ⟨b⟩, ?_⟩
    apply String.ext
    simp [← h]
  · rintro ⟨a, b, rfl⟩
    refine ⟨a.data, b.data, ?_⟩
    simp

theorem infix_skip {α : Type} {x l2 : List α} (l1 : List α) (h : x <:+: l2) :
    x <:+: l1 ++ l2 :=
  h.trans (List.suffix_append _ _).isInfix

theorem infix_take {α : Type} {x l2 : List α} (l3 : List α) (h : x <:+: l2) :
    x <:+: l2 ++ l3 :=
  h.trans (List.prefix_append _ _).isInfix

theorem verbatim_refl (x : String) : VerbatimIn x x := List.infix_refl _

theorem verbatim_skip {x rest : String} (seg : String) (h : VerbatimIn x rest) :
    VerbatimIn x (seg ++ rest) := by
  unfold VerbatimIn at *
  rw [String.data_append]
  exact infix_skip _ h

theorem verbatim_take {x s : String} (t : String) (h : VerbatimIn x s) :
    VerbatimIn x (s ++ t) := by
  unfold VerbatimIn at *
  rw [String.data_append]
  exact infix_take _ h

theorem verbatim_trans {x y z : String} (hxy : VerbatimIn x y)
    (hyz : VerbatimIn y z) : VerbatimIn x z := List.IsInfix.trans hxy hyz

theorem string_foldl_append (init : String) (l : List String) :
    l.foldl (fun r s => r ++ s) init = init ++ l.foldl (fun r s => r ++ s) "" := by
  induction l generalizing init with
  | nil => simp
  | cons s l ih =>
    simp only [List.foldl_cons]
    rw [ih (init ++ s), ih ("" ++ s)]
    simp [String.append_assoc]

theorem string_join_cons (s : String) (l : List String) :
    String.join (s :: l) = s ++ String.join l := by
  unfold String.join
  simp only [List.foldl_cons]
  rw [string_foldl_append ("" ++ s)]
  simp

theorem verbatim_join {x s : String} {l : List String} (hs : s ∈ l)
    (h : VerbatimIn x s) : VerbatimIn x (String.join l) := by
  induction l with
  | nil => cases hs
  | cons t l ih =>
    rw [string_join_cons]
    rcases List.mem_cons.mp hs with rfl | hmem
    · exact verbatim_take _ h
    · exact verbatim_skip _ (ih hmem)

theorem mem_map_enumFrom {α β : Type} {w : α} {l : List α} (f : Nat × α → β)
    (hw : w ∈ l) (n : Nat) : ∃ i, f (i, w) ∈ (l.enumFrom n).map f := by
  induction l generalizing n with
  | nil => cases hw
  | cons a l ih =>
    rcases List.mem_cons.mp hw with rfl | hmem
    · exact ⟨n, List.mem_cons_self _ _⟩
    · obtain ⟨i, hi⟩ := ih hmem (n + 1)
      exact ⟨i, List.mem_cons_of_mem _ hi⟩

theorem dayHtml_fields (d : DailyPlan) :
    VerbatimIn d.day (dayHtml d) ∧ VerbatimIn d.titles (dayHtml d) ∧
    VerbatimIn d.details (dayHtml d) ∧
    VerbatimIn d.breakfast.suggestion (dayHtml d) ∧
    VerbatimIn d.breakfast.calories (dayHtml d) ∧
    VerbatimIn d.lunch.suggestion (dayHtml d) ∧
    VerbatimIn d.lunch.calories (dayHtml d) ∧
    VerbatimIn d.dinner.suggestion (dayHtml d) ∧
    VerbatimIn d.dinner.calories (dayHtml d) := by
  unfold VerbatimIn dayHtml
  simp only [String.data_append, List.append_assoc]
  refine ⟨List.infix_append' _ _ _,
    infix_skip _ <| infix_skip _ <| List.infix_append' _ _ _,
    infix_skip _ <| infix_skip _ <| infix_skip _ <| infix_skip _ <|
      List.infix_append' _ _ _, ?_, ?_, ?_, ?_, ?_, ?_⟩
  · exact infix_skip _ <| infix_skip _ <| infix_skip _ <| infix_skip _ <|
      infix_skip _ <| infix_skip _ <| List.infix_append' _ _ _
  · exact infix_skip _ <| infix_skip _ <| infix_skip _ <| infix_skip _ <|
      infix_skip _ <| infix_skip _ <| infix_skip _ <| infix_skip _ <|
      List.infix_append' _ _ _
  · exact infix_skip _ <| infix_skip _ <| infix_skip _ <| infix_skip _ <|
      infix_skip _ <| infix_skip _ <| infix_skip _ <| infix_skip _ <|
      infix_skip _ <| infix_skip _ <| List.infix_append' _ _ _
  · exact infix_skip _ <| infix_skip _ <| infix_skip _ <| infix_skip _ <|
      infix_skip _ <| infix_skip _ <| infix_skip _ <| infix_skip _ <|
      infix_skip _ <| infix_skip _ <| infix_skip _ <| infix_skip _ <|
      List.infix_append' _ _ _
  · exact infix_skip _ <| infix_skip _ <| infix_skip _ <| infix_skip _ <|
      infix_skip _ <| infix_skip _ <| infix_skip _ <| infix_skip _ <|
      infix_skip _ <| infix_skip _ <| infix_skip _ <| infix_skip _ <|
      infix_skip _ <| infix_skip _ <| List.infix_append' _ _ _
  · exact infix_skip _ <| infix_skip _ <| infix_skip _ <| infix_skip _ <|
      infix_skip _ <| infix_skip _ <| infix_skip _ <| infix_skip _ <|
      infix_skip _ <| infix_skip _ <| infix_skip _ <| infix_skip _ <|
      infix_skip _ <| infix_skip _ <| infix_skip _ <| infix_skip _ <|
      List.infix_append' _ _ _

theorem verbatim_weekHtml {d : DailyPlan} {w : List DailyPlan} (i : Nat)
    (hd : d ∈ w) : VerbatimIn (dayHtml d) (weekHtml i w) := by
  have h : VerbatimIn (dayHtml d) (String.join (w.map dayHtml)) :=
    verbatim_join (List.mem_map_of_mem dayHtml hd) (verbatim_refl _)
  unfold VerbatimIn weekHtml at *
  simp only [String.data_append, List.append_assoc]
  exact infix_skip _ <| infix_skip _ <| infix_skip _ <| infix_skip _ <|
    infix_take _ h

theorem verbatim_generate_of_join {p : RunningPlan} {x : String}
    (h : VerbatimIn x
      (String.join ((p.plan.enumFrom 1).map (fun wk => weekHtml wk.1 wk.2)))) :
    VerbatimIn x (generate_html_training_plan p) := by
  unfold VerbatimIn generate_html_training_plan at *
  simp only [String.data_append, List.append_assoc]
  exact infix_skip _ <| infix_skip _ <| infix_skip _ <| infix_skip _ <|
    infix_skip _ <| infix_skip _ <| infix_skip _ <| infix_skip _ <|
    infix_skip _ <| infix_take _ h

/-- **C3.** `generate_html_training_plan` interpolates every text field of
the plan (motivation, feedback, supplement suggestion, and each day's label,
titles, details, meal suggestions and calories) into the HTML output
verbatim, with no escaping: each field's text — including any
markup-special characters such as `<` or `&` it may contain — appears
character-for-character in the returned HTML. -/
theorem claim_C3_html_verbatim_interpolation (p : RunningPlan) :
    VerbatimIn p.motivation (generate_html_training_plan p) ∧
    VerbatimIn p.feedback (generate_html_training_plan p) ∧
    VerbatimIn p.supplement_suggestion (generate_html_training_plan p) ∧
    ∀ w ∈ p.plan, ∀ d ∈ w,
      VerbatimIn d.day (generate_html_training_plan p) ∧
      VerbatimIn d.titles (generate_html_training_plan p) ∧
      VerbatimIn d.details (generate_html_training_plan p) ∧
      VerbatimIn d.breakfast.suggestion (generate_html_training_plan p) ∧
      VerbatimIn d.breakfast.calories (generate_html_training_plan p) ∧
      VerbatimIn d.lunch.suggestion (generate_html_training_plan p) ∧
      VerbatimIn d.lunch.calories (generate_html_training_plan p) ∧
      VerbatimIn d.dinner.suggestion (generate_html_training_plan p) ∧
      VerbatimIn d.dinner.calories (generate_html_training_plan p) := by
  refine ⟨?_, ?_, ?_, ?_⟩
  · unfold VerbatimIn generate_html_training_plan
    simp only [String.data_append, List.append_assoc]
    exact infix_skip _ <| List.infix_append' _ _ _
  · unfold VerbatimIn generate_html_training_plan
    simp only [String.data_append, List.append_assoc]
    exact infix_skip _ <| infix_skip _ <| infix_skip _ <|
      List.infix_append' _ _ _
  · unfold VerbatimIn generate_html_training_plan
    simp only [String.data_append, List.append_assoc]
    exact infix_skip _ <| infix_skip _ <| infix_skip _ <| infix_skip _ <|
      infix_skip _ <| List.infix_append' _ _ _
  · intro w hw d hd
    obtain ⟨i, hi⟩ :=
      mem_map_enumFrom (fun wk : Nat × WeeklyPlan => weekHtml wk.1 wk.2) hw 1
    have hweek : VerbatimIn (weekHtml i w) (generate_html_training_plan p) :=
      verbatim_generate_of_join (verbatim_join hi (verbatim_refl _))
    have hday : VerbatimIn (dayHtml d) (generate_html_training_plan p) :=
      verbatim_trans (verbatim_weekHtml i hd) hweek
    obtain ⟨h1, h2, h3, h4, h5, h6, h7, h8, h9⟩ := dayHtml_fields d
    exact ⟨verbatim_trans h1 hday, verbatim_trans h2 hday,
      verbatim_trans h3 hday, verbatim_trans h4 hday, verbatim_trans h5 hday,
      verbatim_trans h6 hday, verbatim_trans h7 hday, verbatim_trans h8 hday,
      verbatim_trans h9 hday⟩

/-- **C5.** For every existing plan id, `delete_plan` removes all
`daily_meal` rows referencing that plan's `daily_plan` rows, all of those
`daily_plan` rows, and the `running_plan` row itself (the three DELETEs run
in child-to-parent order in the source), and returns success; a subsequent
`load_plan_from_db` on the same id reports not-found. -/
theorem claim_C5_delete_plan (db : DB) (planId : Nat)
    (_hex : ∃ r ∈ db.running_plan, r.id = planId) :
    (delete_plan planId db).2 = true ∧
    (∀ m ∈ (delete_plan planId db).1.daily_meal,
      ∀ dp ∈ db.daily_plan, dp.running_plan_id = planId →
        m.daily_plan_id ≠ dp.id) ∧
    (∀ dp ∈ (delete_plan planId db).1.daily_plan,
      dp.running_plan_id ≠ planId) ∧
    (∀ r ∈ (delete_plan planId db).1.running_plan, r.id ≠ planId) ∧
    load_plan_from_db planId (delete_plan planId db).1 = none := by
  clear _hex
  refine ⟨rfl, ?_, ?_, ?_, ?_⟩
  · intro m hm dp hdp hrp heq
    simp only [delete_plan, List.mem_filter, Bool.not_eq_true'] at hm
    have hc := hm.2
    have hmem : dp.id ∈ (db.daily_plan.filter
        (fun dp => dp.running_plan_id == planId)).map (fun dp => dp.id) :=
      List.mem_map_of_mem _ (List.mem_filter.mpr ⟨hdp, by simp [hrp]⟩)
    have htrue : ((db.daily_plan.filter
        (fun dp => dp.running_plan_id == planId)).map
          (fun dp => dp.id)).contains m.daily_plan_id = true := by
      rw [List.contains_iff_exists_mem_beq]
      exact ⟨dp.id, hmem, by simp [heq]⟩
    rw [htrue] at hc
    cases hc
  · intro dp hdp
    simp only [delete_plan, List.mem_filter, Bool.not_eq_true',
      beq_eq_false_iff_ne, ne_eq] at hdp
    exact hdp.2
  · intro r hr
    simp only [delete_plan, List.mem_filter, Bool.not_eq_true',
      beq_eq_false_iff_ne, ne_eq] at hr
    exact hr.2
  · unfold load_plan_from_db
    have hnone : (delete_plan planId db).1.running_plan.find?
        (fun r => r.id == planId) = none := by
      rw [List.find?_eq_none]
      intro r hr
      simp only [delete_plan, List.mem_filter, Bool.not_eq_true',
        beq_eq_false_iff_ne, ne_eq] at hr
      simp [hr.2]
    rw [hnone]

/-- Closed witness for C5: deleting an existing plan (one saved day with its
three meals). -/
theorem claim_C5_witness :
    (delete_plan 1
      { running_plan := [{ id := 1, motivation := "m", feedback := "f",
                           supplement_suggestion := "s", created_at := 5 }],
        daily_plan := [{ id := 1, running_plan_id := 1, day := "Monday",
                         titles := "Run", details := "5k", week_number := 1 }],
        daily_meal := [{ id := 1, daily_plan_id := 1, meal_type := "breakfast",
                         suggestion := "oats", calories := "300" },
                       { id := 2, daily_plan_id := 1, meal_type := "lunch",
                         suggestion := "rice", calories := "500" },
                       { id := 3, daily_plan_id := 1, meal_type := "dinner",
                         suggestion := "fish", calories := "400" }],
        next_running_plan_id := 2, next_daily_plan_id := 2,
        next_daily_meal_id := 4 }).2 = true ∧
    (∀ m ∈ (delete_plan 1
      { running_plan := [{ id := 1, motivation := "m", feedback := "f",
                           supplement_suggestion := "s", created_at := 5 }],
        daily_plan := [{ id := 1, running_plan_id := 1, day := "Monday",
                         titles := "Run", details := "5k", week_number := 1 }],
        daily_meal := [{ id := 1, daily_plan_id := 1, meal_type := "breakfast",
                         suggestion := "oats", calories := "300" },
                       { id := 2, daily_plan_id := 1, meal_type := "lunch",
                         suggestion := "rice", calories := "500" },
                       { id := 3, daily_plan_id := 1, meal_type := "dinner",
                         suggestion := "fish", calories := "400" }],
        next_running_plan_id := 2, next_daily_plan_id := 2,
        next_daily_meal_id := 4 }).1.daily_meal,
      ∀ dp ∈ [{ id := 1, running_plan_id := 1, day := "Monday",
                titles := "Run", details := "5k",
                week_number := 1 : DailyPlanRow }],
        dp.running_plan_id = 1 → m.daily_plan_id ≠ dp.id) ∧
    (∀ dp ∈ (delete_plan 1
      { running_plan := [{ id := 1, motivation := "m", feedback := "f",
                           supplement_suggestion := "s", created_at := 5 }],
        daily_plan := [{ id := 1, running_plan_id := 1, day := "Monday",
                         titles := "Run", details := "5k", week_number := 1 }],
        daily_meal := [{ id := 1, daily_plan_id := 1, meal_type := "breakfast",
                         suggestion := "oats", calories := "300" },
                       { id := 2, daily_plan_id := 1, meal_type := "lunch",
                         suggestion := "rice", calories := "500" },
                       { id := 3, daily_plan_id := 1, meal_type := "dinner",
                         suggestion := "fish", calories := "400" }],
        next_running_plan_id := 2, next_daily_plan_id := 2,
        next_daily_meal_id := 4 }).1.daily_plan, dp.running_plan_id ≠ 1) ∧
    (∀ r ∈ (delete_plan 1
      { running_plan := [{ id := 1, motivation := "m", feedback := "f",
                           supplement_suggestion := "s", created_at := 5 }],
        daily_plan := [{ id := 1, running_plan_id := 1, day := "Monday",
                         titles := "Run", details := "5k", week_number := 1 }],
        daily_meal := [{ id := 1, daily_plan_id := 1, meal_type := "breakfast",
                         suggestion := "oats", calories := "300" },
                       { id := 2, daily_plan_id := 1, meal_type := "lunch",
                         suggestion := "rice", calories := "500" },
                       { id := 3, daily_plan_id := 1, meal_type := "dinner",
                         suggestion := "fish", calories := "400" }],
        next_running_plan_id := 2, next_daily_plan_id := 2,
        next_daily_meal_id := 4 }).1.running_plan, r.id ≠ 1) ∧
    load_plan_from_db 1 (delete_plan 1
      { running_plan := [{ id := 1, motivation := "m", feedback := "f",
                           supplement_suggestion := "s", created_at := 5 }],
        daily_plan := [{ id := 1, running_plan_id := 1, day := "Monday",
                         titles := "Run", details := "5k", week_number := 1 }],
        daily_meal := [{ id := 1, daily_plan_id := 1, meal_type := "breakfast",
                         suggestion := "oats", calories := "300" },
                       { id := 2, daily_plan_id := 1, meal_type := "lunch",
                         suggestion := "rice", calories := "500" },
                       { id := 3, daily_plan_id := 1, meal_type := "dinner",
                         suggestion := "fish", calories := "400" }],
        next_running_plan_id := 2, next_daily_plan_id := 2,
        next_daily_meal_id := 4 }).1 = none :=
  claim_C5_delete_plan
    { running_plan := [{ id := 1, motivation := "m", feedback := "f",
                         supplement_suggestion := "s", created_at := 5 }],
      daily_plan := [{ id := 1, running_plan_id := 1, day := "Monday",
                       titles := "Run", details := "5k", week_number := 1 }],
      daily_meal := [{ id := 1, daily_plan_id := 1, meal_type := "breakfast",
                       suggestion := "oats", calories := "300" },
                     { id := 2, daily_plan_id := 1, meal_type := "lunch",
                       suggestion := "rice", calories := "500" },
                     { id := 3, daily_plan_id := 1, meal_type := "dinner",
                       suggestion := "fish", calories := "400" }],
      next_running_plan_id := 2, next_daily_plan_id := 2,
      next_daily_meal_id := 4 } 1
    ⟨{ id := 1, motivation := "m", feedback := "f",
       supplement_suggestion := "s", created_at := 5 },
      by decide, rfl⟩

theorem insertWeek_foldl (rpId : Nat) (weeks : List WeeklyPlan) :
    ∀ (s : Nat) (db : DB),
      (weeks.enumFrom s).foldl (fun db wk => insertWeek rpId wk.1 wk.2 db) db =
        (planRecordsFrom s weeks).foldl
          (fun db r => insertDaily rpId r.1 r.2 db) db := by
  induction weeks with
  | nil => intro s db; rfl
  | cons w ws ih =>
    intro s db
    simp only [List.enumFrom_cons, List.foldl_cons, planRecordsFrom,
      List.flatMap_cons, List.foldl_append]
    rw [insertWeek, List.foldl_map]
    exact ih (s + 1) _

theorem insertDaily_foldl (rpId : Nat) (recs : List (Nat × DailyPlan)) :
    ∀ db : DB,
      recs.foldl (fun db r => insertDaily rpId r.1 r.2 db) db =
        { running_plan := db.running_plan
          daily_plan := db.daily_plan ++
            (genRows rpId db.next_daily_plan_id db.next_daily_meal_id recs).1
          daily_meal := db.daily_meal ++
            (genRows rpId db.next_daily_plan_id db.next_daily_meal_id recs).2
          next_running_plan_id := db.next_running_plan_id
          next_daily_plan_id := db.next_daily_plan_id + recs.length
          next_daily_meal_id := db.next_daily_meal_id + 3 * recs.length } := by
  induction recs with
  | nil => intro db; simp [genRows]
  | cons r rest ih =>
    obtain ⟨w, d⟩ := r
    intro db
    rw [List.foldl_cons, ih]
    simp only [insertDaily, insertMeal, genRows, mealRowsOf, List.length_cons]
    simp only [DB.mk.injEq]
    refine ⟨trivial, ?_, ?_, trivial, by omega, by omega⟩ <;>
      simp_arith [List.append_assoc]

theorem save_plan_to_db_spec (p : RunningPlan) (now : Nat) (db : DB) :
    save_plan_to_db p now db =
      ({ running_plan := db.running_plan ++
          [{ id := db.next_running_plan_id, motivation := p.motivation,
             feedback := p.feedback,
             supplement_suggestion := p.supplement_suggestion,
             created_at := now }]
         daily_plan := db.daily_plan ++
           (genRows db.next_running_plan_id db.next_daily_plan_id
             db.next_daily_meal_id (planRecords p)).1
         daily_meal := db.daily_meal ++
           (genRows db.next_running_plan_id db.next_daily_plan_id
             db.next_daily_meal_id (planRecords p)).2
         next_running_plan_id := db.next_running_plan_id + 1
         next_daily_plan_id := db.next_daily_plan_id + (planRecords p).length
         next_daily_meal_id :=
           db.next_daily_meal_id + 3 * (planRecords p).length },
       db.next_running_plan_id) := by
  simp only [save_plan_to_db]
  rw [insertWeek_foldl, insertDaily_foldl]
  rfl

theorem genRows_dp_mem (rpId : Nat) (recs : List (Nat × DailyPlan)) :
    ∀ (s m : Nat), ∀ dp ∈ (genRows rpId s m recs).1,
      dp.running_plan_id = rpId ∧ s ≤ dp.id ∧ dp.id < s + recs.length := by
  induction recs with
  | nil => intro s m dp h; simp [genRows] at h
  | cons r rest ih =>
    obtain ⟨w, d⟩ := r
    intro s m dp h
    simp only [genRows, List.mem_cons] at h
    rcases h with rfl | h
    · exact ⟨rfl, Nat.le_refl _, by simp only [List.length_cons]; omega⟩
    · obtain ⟨h1, h2, h3⟩ := ih (s + 1) (m + 3) dp h
      exact ⟨h1, by omega, by simp only [List.length_cons]; omega⟩

theorem genRows_meal_mem (rpId : Nat) (recs : List (Nat × DailyPlan)) :
    ∀ (s m : Nat), ∀ mr ∈ (genRows rpId s m recs).2,
      s ≤ mr.daily_plan_id ∧ mr.daily_plan_id < s + recs.length := by
  induction recs with
  | nil => intro s m mr h; simp [genRows] at h
  | cons r rest ih =>
    obtain ⟨w, d⟩ := r
    intro s m mr h
    simp only [genRows, mealRowsOf, List.mem_append, List.mem_cons,
      List.not_mem_nil, or_false] at h
    rcases h with (rfl | rfl | rfl) | h
    · exact ⟨Nat.le_refl _, by simp only [List.length_cons]; omega⟩
    · exact ⟨Nat.le_refl _, by simp only [List.length_cons]; omega⟩
    · exact ⟨Nat.le_refl _, by simp only [List.length_cons]; omega⟩
    · obtain ⟨h1, h2⟩ := ih (s + 1) (m + 3) mr h
      exact ⟨by omega, by simp only [List.length_cons]; omega⟩

theorem filter_meal_eq_nil {meals : List DailyMealRow} {dpId : Nat} (ty : String)
    (h : ∀ mr ∈ meals, mr.daily_plan_id ≠ dpId) :
    meals.filter (fun m => m.daily_plan_id == dpId && m.meal_type == ty) = [] := by
  rw [List.filter_eq_nil_iff]
  intro mr hmr
  simp [h mr hmr]

theorem mealMatches_split (old new rest : List DailyMealRow) (dpId : Nat)
    (ty : String)
    (hold : ∀ mr ∈ old, mr.daily_plan_id ≠ dpId)
    (hrest : ∀ mr ∈ rest, mr.daily_plan_id ≠ dpId) :
    mealMatches (old ++ (new ++ rest)) dpId ty = mealMatches new dpId ty := by
  unfold mealMatches
  rw [List.filter_append, List.filter_append, filter_meal_eq_nil ty hold,
    filter_meal_eq_nil ty hrest, List.nil_append, List.append_nil]

theorem joinDaily_single (old rest : List DailyMealRow) (s m : Nat)
    (d : DailyPlan) (dp : DailyPlanRow) (hid : dp.id = s)
    (hold : ∀ mr ∈ old, mr.daily_plan_id ≠ s)
    (hrest : ∀ mr ∈ rest, mr.daily_plan_id ≠ s) :
    joinDaily (old ++ (mealRowsOf s m d ++ rest)) dp =
      [{ dp := dp,
         breakfast := some
           { id := m, daily_plan_id := s, meal_type := "breakfast",
             suggestion := d.breakfast.suggestion,
             calories := d.breakfast.calories },
         lunch := some
           { id := m + 1, daily_plan_id := s, meal_type := "lunch",
             suggestion := d.lunch.suggestion,
             calories := d.lunch.calories },
         dinner := some
           { id := m + 2, daily_plan_id := s, meal_type := "dinner",
             suggestion := d.dinner.suggestion,
             calories := d.dinner.calories } }] := by
  unfold joinDaily
  rw [hid]
  rw [mealMatches_split old (mealRowsOf s m d) rest s "breakfast" hold hrest,
    mealMatches_split old (mealRowsOf s m d) rest s "lunch" hold hrest,
    mealMatches_split old (mealRowsOf s m d) rest s "dinner" hold hrest]
  have hb : mealMatches (mealRowsOf s m d) s "breakfast" =
      [some
        { id := m, daily_plan_id := s, meal_type := "breakfast",
          suggestion := d.breakfast.suggestion,
          calories := d.breakfast.calories }] := by
    simp [mealMatches, mealRowsOf, List.filter]
  have hl : mealMatches (mealRowsOf s m d) s "lunch" =
      [some
        { id := m + 1, daily_plan_id := s, meal_type := "lunch",
          suggestion := d.lunch.suggestion,
          calories := d.lunch.calories }] := by
    simp [mealMatches, mealRowsOf, List.filter]
  have hd : mealMatches (mealRowsOf s m d) s "dinner" =
      [some
        { id := m + 2, daily_plan_id := s, meal_type := "dinner",
          suggestion := d.dinner.suggestion,
          calories := d.dinner.calories }] := by
    simp [mealMatches, mealRowsOf, List.filter]
  rw [hb, hl, hd]
  rfl

theorem genRows_join_conv (rpId : Nat) (recs : List (Nat × DailyPlan)) :
    ∀ (s m : Nat) (oldMeals : List DailyMealRow),
      (∀ mr ∈ oldMeals, mr.daily_plan_id < s) →
      convRows ((genRows rpId s m recs).1.flatMap
        (joinDaily (oldMeals ++ (genRows rpId s m recs).2))) = some recs := by
  induction recs with
  | nil => intro s m old hold; simp [genRows, convRows]
  | cons r rest ih =>
    obtain ⟨w, d⟩ := r
    intro s m old hold
    simp only [genRows, List.flatMap_cons]
    rw [joinDaily_single old (genRows rpId (s + 1) (m + 3) rest).2 s m d
        { id := s, running_plan_id := rpId, day := d.day, titles := d.titles,
          details := d.details, week_number := w } rfl
        (fun mr hmr => Nat.ne_of_lt (hold mr hmr))
        (fun mr hmr => by
          have h2 := (genRows_meal_mem rpId rest (s + 1) (m + 3) mr hmr).1
          omega)]
    have htail := ih (s + 1) (m + 3) (old ++ mealRowsOf s m d) (by
      intro mr hmr
      rcases List.mem_append.mp hmr with h | h
      · exact Nat.lt_succ_of_lt (hold mr h)
      · simp only [mealRowsOf, List.mem_cons, List.not_mem_nil, or_false] at h
        rcases h with rfl | rfl | rfl <;> dsimp only <;> omega)
    rw [List.append_assoc] at htail
    simp [convRows, rowToDailyPlan, htail]

theorem storedRecords_after_save (db : DB) (p : RunningPlan) (now : Nat)
    (hinv : DBinv db) :
    storedRecords (save_plan_to_db p now db).1 db.next_running_plan_id =
      some (planRecords p) := by
  obtain ⟨h1, h2, h3⟩ := hinv
  rw [save_plan_to_db_spec]
  unfold storedRecords
  dsimp only
  have hfil : (db.daily_plan ++
      (genRows db.next_running_plan_id db.next_daily_plan_id
        db.next_daily_meal_id (planRecords p)).1).filter
        (fun dp => dp.running_plan_id == db.next_running_plan_id) =
      (genRows db.next_running_plan_id db.next_daily_plan_id
        db.next_daily_meal_id (planRecords p)).1 := by
    rw [List.filter_append]
    rw [List.filter_eq_nil_iff.mpr (by
      intro dp hdp
      have := h2 dp hdp
      simp only [beq_iff_eq]
      omega)]
    rw [List.nil_append]
    rw [List.filter_eq_self.mpr (by
      intro dp hdp
      have := (genRows_dp_mem db.next_running_plan_id (planRecords p)
        db.next_daily_plan_id db.next_daily_meal_id dp hdp).1
      simp [this])]
  rw [hfil]
  exact genRows_join_conv db.next_running_plan_id (planRecords p)
    db.next_daily_plan_id db.next_daily_meal_id db.daily_meal h3

theorem convRows_eq_some_iff (l : List JoinedRow) (xs : List (Nat × DailyPlan)) :
    convRows l = some xs ↔
      ((∀ r ∈ l, (rowToDailyPlan r).isSome) ∧
        xs = l.filterMap rowToDailyPlan) := by
  induction l generalizing xs with
  | nil =>
    simp only [convRows, List.filterMap_nil, List.not_mem_nil, false_implies,
      implies_true, true_and, Option.some.injEq]
    exact eq_comm
  | cons r rs ih =>
    cases hr : rowToDailyPlan r with
    | none =>
      simp only [convRows, hr]
      simp [hr]
    | some x =>
      cases hc : convRows rs with
      | none =>
        simp only [convRows, hr, hc]
        constructor
        · intro h; cases h
        · rintro ⟨hall, rfl⟩
          have : convRows rs = some (rs.filterMap rowToDailyPlan) :=
            (ih _).mpr ⟨fun a ha => hall a (List.mem_cons_of_mem _ ha), rfl⟩
          rw [this] at hc; cases hc
      | some ys =>
        simp only [convRows, hr, hc]
        obtain ⟨hall, rfl⟩ := (ih ys).mp hc
        constructor
        · rintro h
          obtain rfl := Option.some.inj h
          refine ⟨?_, ?_⟩
          · intro a ha
            rcases List.mem_cons.mp ha with rfl | ha
            · simp [hr]
            · exact hall a ha
          · simp [List.filterMap_cons, hr]
        · rintro ⟨hall2, rfl⟩
          simp [List.filterMap_cons, hr]

theorem dictGet_nil (k : Nat) : dictGet [] k = [] := rfl

theorem dictGet_cons (a : Nat) (b : List DailyPlan)
    (t : List (Nat × List DailyPlan)) (k : Nat) :
    dictGet ((a, b) :: t) k = if a == k then b else dictGet t k := by
  unfold dictGet
  rw [List.find?_cons]
  by_cases h : a = k
  · simp [h]
  · have hb : (a == k) = false := by simp [h]
    simp [hb]

theorem dictGet_dictAppend (m : List (Nat × List DailyPlan)) (k : Nat)
    (v : DailyPlan) (k2 : Nat) :
    dictGet (dictAppend m k v) k2 =
      dictGet m k2 ++ (if k2 = k then [v] else []) := by
  induction m with
  | nil =>
    by_cases h : k = k2
    · subst h; simp [dictAppend, dictGet_cons, dictGet_nil]
    · have h2 : ¬ k2 = k := fun hh => h hh.symm
      simp [dictAppend, dictGet_cons, dictGet_nil, h, h2]
  | cons e rest ih =>
    obtain ⟨k1, vs⟩ := e
    by_cases h1 : k1 = k
    · subst h1
      by_cases h2 : k1 = k2
      · subst h2
        simp [dictAppend, dictGet_cons]
      · have h3 : ¬ k2 = k1 := fun hh => h2 hh.symm
        simp [dictAppend, dictGet_cons, h2, h3]
    · by_cases h2 : k1 = k2
      · subst h2
        have h3 : ¬ k1 = k := h1
        have h4 : (k1 == k) = false := by simp [h1]
        simp [dictAppend, dictGet_cons, h4, fun hh : k1 = k => h1 hh]
      · have h4 : (k1 == k) = false := by simp [h1]
        have h5 : (k1 == k2) = false := by simp [h2]
        simp [dictAppend, dictGet_cons, h4, h5, ih]

theorem dictGet_foldl (rows : List (Nat × DailyPlan)) :
    ∀ (m0 : List (Nat × List DailyPlan)) (k : Nat),
      dictGet (rows.foldl (fun m r => dictAppend m r.1 r.2) m0) k =
        dictGet m0 k ++ (rows.filter (fun r => r.1 == k)).map Prod.snd := by
  induction rows with
  | nil => intro m0 k; simp
  | cons r rest ih =>
    obtain ⟨a, v⟩ := r
    intro m0 k
    rw [List.foldl_cons, ih]
    rw [dictGet_dictAppend]
    by_cases h : a = k
    · subst h
      simp [List.filter_cons, List.append_assoc]
    · have hb : (a == k) = false := by simp [h]
      have h2 : ¬ k = a := fun hh => h hh.symm
      simp [List.filter_cons, hb, h2]

theorem keys_dictAppend (m : List (Nat × List DailyPlan)) (k : Nat)
    (v : DailyPlan) :
    (dictAppend m k v).map Prod.fst =
      if k ∈ m.map Prod.fst then m.map Prod.fst
      else m.map Prod.fst ++ [k] := by
  induction m with
  | nil => simp [dictAppend]
  | cons e rest ih =>
    obtain ⟨k1, vs⟩ := e
    by_cases h : k1 = k
    · subst h
      simp [dictAppend]
    · have hb : (k1 == k) = false := by simp [h]
      have h2 : ¬ k = k1 := fun hh => h hh.symm
      simp only [dictAppend, hb, Bool.false_eq_true, if_false, List.map_cons,
        List.mem_cons, h2, false_or, ih]
      by_cases hmem : k ∈ rest.map Prod.fst
      · simp [hmem]
      · simp [hmem]

theorem keys_foldl_mem (rows : List (Nat × DailyPlan)) :
    ∀ (m0 : List (Nat × List DailyPlan)) (k : Nat),
      (k ∈ (rows.foldl (fun m r => dictAppend m r.1 r.2) m0).map Prod.fst ↔
        k ∈ m0.map Prod.fst ∨ k ∈ rows.map Prod.fst) := by
  induction rows with
  | nil => intro m0 k; simp
  | cons r rest ih =>
    obtain ⟨a, v⟩ := r
    intro m0 k
    rw [List.foldl_cons, ih]
    have hk : k ∈ (dictAppend m0 a v).map Prod.fst ↔
        k ∈ m0.map Prod.fst ∨ k = a := by
      rw [keys_dictAppend]
      by_cases hmem : a ∈ m0.map Prod.fst
      · simp only [hmem, if_true]
        constructor
        · exact fun h => Or.inl h
        · rintro (h | rfl)
          · exact h
          · exact hmem
      · simp [hmem]
    rw [hk]
    simp only [List.map_cons, List.mem_cons]
    tauto

theorem keys_foldl_nodup (rows : List (Nat × DailyPlan)) :
    ∀ (m0 : List (Nat × List DailyPlan)),
      (m0.map Prod.fst).Nodup →
      ((rows.foldl (fun m r => dictAppend m r.1 r.2) m0).map Prod.fst).Nodup := by
  induction rows with
  | nil => intro m0 h; simpa using h
  | cons r rest ih =>
    obtain ⟨a, v⟩ := r
    intro m0 h
    rw [List.foldl_cons]
    apply ih
    rw [keys_dictAppend]
    by_cases hmem : a ∈ m0.map Prod.fst
    · simpa [hmem] using h
    · simp only [hmem, if_false]
      rw [List.nodup_append]
      exact ⟨h, List.nodup_singleton _, by
        intro x hx hx2
        simp only [List.mem_singleton] at hx2
        subst hx2
        exact hmem hx⟩

theorem rowLe_trans (a b c : JoinedRow) (hab : rowLe a b) (hbc : rowLe b c) :
    rowLe a c := by
  simp only [rowLe, Bool.or_eq_true, Bool.and_eq_true, decide_eq_true_eq,
    beq_iff_eq] at *
  rcases hab with h1 | ⟨h1, h2⟩ <;> rcases hbc with h3 | ⟨h3, h4⟩
  · exact Or.inl (Nat.lt_trans h1 h3)
  · exact Or.inl (h3 ▸ h1)
  · exact Or.inl (h1 ▸ h3)
  · exact Or.inr ⟨h1.trans h3, strLe_trans h2 h4⟩

theorem rowLe_total (a b : JoinedRow) : rowLe a b || rowLe b a := by
  simp only [rowLe, Bool.or_eq_true, Bool.and_eq_true, decide_eq_true_eq,
    beq_iff_eq]
  rcases Nat.lt_trichotomy a.dp.week_number b.dp.week_number with h | h | h
  · exact Or.inl (Or.inl h)
  · rcases Bool.or_eq_true _ _ |>.mp (strLe_total a.dp.day b.dp.day)
      with h2 | h2
    · exact Or.inl (Or.inr ⟨h, h2⟩)
    · exact Or.inr (Or.inr ⟨h.symm, h2⟩)
  · exact Or.inr (Or.inl h)

theorem rowToDailyPlan_keys {r : JoinedRow} {x : Nat × DailyPlan}
    (h : rowToDailyPlan r = some x) :
    x.1 = r.dp.week_number ∧ x.2.day = r.dp.day := by
  obtain ⟨dp, b, l, dn⟩ := r
  cases b <;> cases l <;> cases dn <;> simp [rowToDailyPlan] at h
  obtain rfl := h.symm
  exact ⟨rfl, rfl⟩

theorem pairwise_lt_of_le_nodup {l : List Nat}
    (hle : l.Pairwise (fun a b => a ≤ b)) (hnd : l.Nodup) :
    l.Pairwise (fun a b => a < b) :=
  (hle.and hnd).imp (fun h => Nat.lt_of_le_of_ne h.1 h.2)

theorem load_analysis (db : DB) (planId : Nat) (q : RunningPlan)
    (hload : load_plan_from_db planId db = some q) :
    ∃ rp srecs recs,
      db.running_plan.find? (fun r => r.id == planId) = some rp ∧
      q.motivation = rp.motivation ∧ q.feedback = rp.feedback ∧
      q.supplement_suggestion = rp.supplement_suggestion ∧
      storedRecords db planId = some recs ∧
      List.Perm srecs recs ∧
      srecs.Pairwise
        (fun x y => x.1 < y.1 ∨ (x.1 = y.1 ∧ strLe x.2.day y.2.day)) ∧
      ∃ ws : List Nat,
        ws.Pairwise (fun a b => a < b) ∧
        (∀ k, k ∈ ws ↔ k ∈ srecs.map Prod.fst) ∧
        q.plan = ws.map
          (fun k => (srecs.filter (fun r => r.1 == k)).map Prod.snd) := by
  cases hfind : db.running_plan.find? (fun r => r.id == planId) with
  | none =>
    unfold load_plan_from_db at hload
    rw [hfind] at hload
    cases hload
  | some rp =>
  cases hconv : convRows (queryRows db planId) with
  | none =>
    unfold load_plan_from_db at hload
    rw [hfind, hconv] at hload
    cases hload
  | some srecs =>
  have hq : (some
      { motivation := rp.motivation, feedback := rp.feedback,
        supplement_suggestion := rp.supplement_suggestion,
        plan := (sortBy (fun a b => a ≤ b)
          ((srecs.foldl (fun m r => dictAppend m r.1 r.2) []).map
            Prod.fst)).map
            (dictGet (srecs.foldl (fun m r => dictAppend m r.1 r.2) [])) } :
      Option RunningPlan) = some q := by
    rw [← hload]
    unfold load_plan_from_db
    rw [hfind, hconv]
  obtain rfl := Option.some.inj hq
  obtain ⟨hall, hsrecs⟩ := (convRows_eq_some_iff _ _).mp hconv
  refine ⟨rp, srecs,
    ((db.daily_plan.filter (fun dp => dp.running_plan_id == planId)).flatMap
      (joinDaily db.daily_meal)).filterMap rowToDailyPlan,
    rfl, rfl, rfl, rfl, ?_, ?_, ?_, ?_⟩
  · exact (convRows_eq_some_iff _ _).mpr
      ⟨fun r hr => hall r (mem_sortBy.mpr hr), rfl⟩
  · rw [hsrecs]
    exact List.Perm.filterMap _ (sortBy_perm _ _)
  · rw [hsrecs]
    refine List.Pairwise.filterMap rowToDailyPlan ?_
      (pairwise_sortBy rowLe_trans rowLe_total _)
    intro a b hab x hx y hy
    obtain ⟨hx1, hx2⟩ := rowToDailyPlan_keys hx
    obtain ⟨hy1, hy2⟩ := rowToDailyPlan_keys hy
    simp only [rowLe, Bool.or_eq_true, Bool.and_eq_true, decide_eq_true_eq,
      beq_iff_eq] at hab
    rcases hab with h | ⟨h1, h2⟩
    · exact Or.inl (by rw [hx1, hy1]; exact h)
    · exact Or.inr ⟨by rw [hx1, hy1]; exact h1, by rw [hx2, hy2]; exact h2⟩
  · refine ⟨sortBy (fun a b => a ≤ b)
      ((srecs.foldl (fun m r => dictAppend m r.1 r.2) []).map Prod.fst),
      ?_, ?_, ?_⟩
    · apply pairwise_lt_of_le_nodup
      · have := @pairwise_sortBy Nat
          (fun a b : Nat => decide (a ≤ b))
          (fun a b c h1 h2 => by
            simp only [decide_eq_true_eq] at *; omega)
          (fun a b => by
            simp only [Bool.or_eq_true, decide_eq_true_eq]; omega)
          ((srecs.foldl (fun m r => dictAppend m r.1 r.2) []).map Prod.fst)
        exact this.imp (by simp)
      · exact (sortBy_perm _ _).nodup_iff.mpr
          (keys_foldl_nodup srecs [] (by simp))
    · intro k
      rw [mem_sortBy, keys_foldl_mem srecs [] k]
      simp
    · apply List.map_congr_left
      intro k hk
      rw [dictGet_foldl srecs [] k, dictGet_nil, List.nil_append]

/-- **C2.** `load_plan_from_db` groups the stored day rows by their stored
`week_number`: the reconstructed plan has one week per distinct stored week
number, the weeks appear in ascending week-number order, and within each
week the days appear sorted by their day label (code-point lexicographic
order, SQLite BINARY collation), not in insertion order — each week is a
label-sorted permutation of the day records stored under that week
number. -/
theorem claim_C2_load_grouping (db : DB) (planId : Nat) (q : RunningPlan)
    (hload : load_plan_from_db planId db = some q) :
    ∃ recs, storedRecords db planId = some recs ∧
      (∀ wk ∈ q.plan, wk.Pairwise (fun a b => strLe a.day b.day)) ∧
      ∃ ws : List Nat,
        ws.Pairwise (fun a b => a < b) ∧
        (∀ k, k ∈ ws ↔ k ∈ recs.map Prod.fst) ∧
        q.plan.length = ws.length ∧
        ∀ i (hi : i < ws.length) (hq2 : i < q.plan.length),
          List.Perm (q.plan.get ⟨i, hq2⟩)
            ((recs.filter (fun r => r.1 == ws.get ⟨i, hi⟩)).map Prod.snd) := by
  obtain ⟨rp, srecs, recs, hfind, hm, hf, hs, hstored, hperm, hsorted,
    ws, hws, hmem, hplan⟩ := load_analysis db planId q hload
  refine ⟨recs, hstored, ?_, ws, hws, ?_, ?_, ?_⟩
  · intro wk hwk
    rw [hplan] at hwk
    obtain ⟨k, hk, rfl⟩ := List.mem_map.mp hwk
    rw [List.pairwise_map]
    have hfil : (srecs.filter (fun r => r.1 == k)).Pairwise
        (fun x y => x.1 < y.1 ∨ (x.1 = y.1 ∧ strLe x.2.day y.2.day)) :=
      hsorted.filter _
    refine hfil.imp_of_mem ?_
    intro a b ha hb hab
    have ha2 := (List.mem_filter.mp ha).2
    have hb2 := (List.mem_filter.mp hb).2
    simp only [beq_iff_eq] at ha2 hb2
    rcases hab with h | ⟨h1, h2⟩
    · rw [ha2, hb2] at h
      exact absurd h (lt_irrefl k)
    · exact h2
  · intro k
    rw [hmem k]
    exact List.Perm.mem_iff (hperm.map Prod.fst)
  · rw [hplan, List.length_map]
  · intro i hi hq2
    have hget : q.plan.get ⟨i, hq2⟩ =
        (srecs.filter (fun r => r.1 == ws.get ⟨i, hi⟩)).map Prod.snd := by
      rw [List.get_of_eq hplan]
      simp [List.get_eq_getElem, List.getElem_map]
    rw [hget]
    exact (hperm.filter _).map _

theorem claim_C2_witness :
    ∃ recs, storedRecords dbC2 1 = some recs ∧
      (∀ wk ∈ qC2.plan, wk.Pairwise (fun a b => strLe a.day b.day)) ∧
      ∃ ws : List Nat,
        ws.Pairwise (fun a b => a < b) ∧
        (∀ k, k ∈ ws ↔ k ∈ recs.map Prod.fst) ∧
        qC2.plan.length = ws.length ∧
        ∀ i (hi : i < ws.length) (hq2 : i < qC2.plan.length),
          List.Perm (qC2.plan.get ⟨i, hq2⟩)
            ((recs.filter (fun r => r.1 == ws.get ⟨i, hi⟩)).map Prod.snd) :=
  claim_C2_load_grouping dbC2 1 qC2 (by decide)

theorem planRecordsFrom_cons (s : Nat) (w : WeeklyPlan) (ws : List WeeklyPlan) :
    planRecordsFrom s (w :: ws) =
      w.map (fun d => (s, d)) ++ planRecordsFrom (s + 1) ws := by
  simp [planRecordsFrom]

theorem planRecordsFrom_fst_bound (weeks : List WeeklyPlan) :
    ∀ (s : Nat), ∀ r ∈ planRecordsFrom s weeks,
      s ≤ r.1 ∧ r.1 < s + weeks.length := by
  induction weeks with
  | nil => intro s r h; simp [planRecordsFrom] at h
  | cons w ws ih =>
    intro s r h
    rw [planRecordsFrom_cons] at h
    rcases List.mem_append.mp h with h | h
    · obtain ⟨d, hd, rfl⟩ := List.mem_map.mp h
      simp only [List.length_cons]
      omega
    · obtain ⟨h1, h2⟩ := ih (s + 1) r h
      simp only [List.length_cons]
      omega

theorem planRecordsFrom_filter (weeks : List WeeklyPlan) :
    ∀ (s i : Nat) (h : i < weeks.length),
      (planRecordsFrom s weeks).filter (fun r => r.1 == s + i) =
        (weeks.get ⟨i, h⟩).map (fun d => (s + i, d)) := by
  induction weeks with
  | nil => intro s i h; cases h
  | cons w ws ih =>
    intro s i h
    rw [planRecordsFrom_cons, List.filter_append]
    cases i with
    | zero =>
      have hA : (w.map (fun d => (s, d))).filter
          (fun r => r.1 == s + 0) = w.map (fun d => (s, d)) := by
        rw [List.filter_eq_self]
        intro r hr
        obtain ⟨d, hd, rfl⟩ := List.mem_map.mp hr
        simp
      have hB : (planRecordsFrom (s + 1) ws).filter
          (fun r => r.1 == s + 0) = [] := by
        rw [List.filter_eq_nil_iff]
        intro r hr
        have := (planRecordsFrom_fst_bound ws (s + 1) r hr).1
        simp only [beq_iff_eq]
        omega
      rw [hA, hB, List.append_nil]
      simp
    | succ j =>
      have hA : (w.map (fun d => (s, d))).filter
          (fun r => r.1 == s + (j + 1)) = [] := by
        rw [List.filter_eq_nil_iff]
        intro r hr
        obtain ⟨d, hd, rfl⟩ := List.mem_map.mp hr
        simp only [beq_iff_eq]
        omega
      rw [hA, List.nil_append]
      have h2 : j < ws.length := by
        simp only [List.length_cons] at h
        omega
      have h3 := ih (s + 1) j h2
      rw [show s + 1 + j = s + (j + 1) by omega] at h3
      rw [h3]
      rfl

theorem planRecordsFrom_fst_mem (weeks : List WeeklyPlan)
    (hval : ∀ w ∈ weeks, w ≠ []) :
    ∀ (s k : Nat),
      (k ∈ (planRecordsFrom s weeks).map Prod.fst ↔
        s ≤ k ∧ k < s + weeks.length) := by
  induction weeks with
  | nil => intro s k; simp [planRecordsFrom]
  | cons w ws ih =>
    intro s k
    rw [planRecordsFrom_cons]
    have hw : w ≠ [] := hval w (List.mem_cons_self _ _)
    have hihs := ih (fun x hx => hval x (List.mem_cons_of_mem _ hx)) (s + 1) k
    rw [List.map_append, List.mem_append]
    simp only [List.length_cons]
    constructor
    · rintro (h | h)
      · obtain ⟨r, hr, rfl⟩ := List.mem_map.mp h
        obtain ⟨d, hd, rfl⟩ := List.mem_map.mp hr
        simp only
        omega
      · have := hihs.mp h
        omega
    · intro h
      by_cases hk : k = s
      · subst hk
        left
        obtain ⟨d, hd⟩ := List.exists_mem_of_ne_nil w hw
        exact List.mem_map.mpr ⟨(k, d), List.mem_map.mpr ⟨d, hd, rfl⟩, rfl⟩
      · right
        exact hihs.mpr (by omega)

/-- **C1.** For every valid plan (in the sense of `validate_plan_structure`)
and every well-formed database state, `save_plan_to_db` followed by
`load_plan_from_db` on the returned id succeeds and yields a plan whose
`motivation`, `feedback` and `supplement_suggestion` equal the originals
exactly, and whose weeks contain, per 1-based week number, the same set of
day records as the original week (each loaded week is a permutation of the
original week, so set equality holds; the within-week order is not
preserved in general). -/
theorem claim_C1_save_load_round_trip (p : RunningPlan) (now : Nat) (db : DB)
    (hinv : DBinv db) (hval : validate_plan_structure p = true) :
    ∃ q, load_plan_from_db (save_plan_to_db p now db).2
        (save_plan_to_db p now db).1 = some q ∧
      q.motivation = p.motivation ∧ q.feedback = p.feedback ∧
      q.supplement_suggestion = p.supplement_suggestion ∧
      q.plan.length = p.plan.length ∧
      ∀ i (h1 : i < q.plan.length) (h2 : i < p.plan.length) (d : DailyPlan),
        d ∈ q.plan.get ⟨i, h1⟩ ↔ d ∈ p.plan.get ⟨i, h2⟩ := by
  obtain ⟨hne, hwk⟩ := (validate_plan_structure_iff p).mp hval
  have hsave := save_plan_to_db_spec p now db
  have hsnd : (save_plan_to_db p now db).2 = db.next_running_plan_id := by
    rw [hsave]
  have hrpl : (save_plan_to_db p now db).1.running_plan =
      db.running_plan ++
        [{ id := db.next_running_plan_id, motivation := p.motivation,
           feedback := p.feedback,
           supplement_suggestion := p.supplement_suggestion,
           created_at := now }] := by
    rw [hsave]
  have hfind : (save_plan_to_db p now db).1.running_plan.find?
      (fun r => r.id == db.next_running_plan_id) =
      some { id := db.next_running_plan_id, motivation := p.motivation,
             feedback := p.feedback,
             supplement_suggestion := p.supplement_suggestion,
             created_at := now } := by
    rw [hrpl, List.find?_append]
    rw [List.find?_eq_none.mpr (by
      intro r hr
      have := hinv.1 r hr
      simp only [beq_iff_eq]
      omega)]
    rw [Option.none_or]
    simp [List.find?_cons]
  have hstored := storedRecords_after_save db p now hinv
  unfold storedRecords at hstored
  obtain ⟨hallJ, hplanrecs⟩ := (convRows_eq_some_iff _ _).mp hstored
  have hconv : convRows (queryRows (save_plan_to_db p now db).1
      db.next_running_plan_id) =
      some ((sortBy rowLe
        (((save_plan_to_db p now db).1.daily_plan.filter
          (fun dp => dp.running_plan_id == db.next_running_plan_id)).flatMap
            (joinDaily (save_plan_to_db p now db).1.daily_meal))).filterMap
              rowToDailyPlan) :=
    (convRows_eq_some_iff _ _).mpr
      ⟨fun r hr => hallJ r (mem_sortBy.mp hr), rfl⟩
  set srecs := (sortBy rowLe
    (((save_plan_to_db p now db).1.daily_plan.filter
      (fun dp => dp.running_plan_id == db.next_running_plan_id)).flatMap
        (joinDaily (save_plan_to_db p now db).1.daily_meal))).filterMap
          rowToDailyPlan with hsrecs_def
  have hperm : List.Perm srecs (planRecords p) := by
    rw [hplanrecs, hsrecs_def]
    exact List.Perm.filterMap _ (sortBy_perm _ _)
  set weeks := srecs.foldl (fun m r => dictAppend m r.1 r.2) [] with hweeks_def
  set ws := sortBy (fun a b => a ≤ b) (weeks.map Prod.fst) with hws_def
  have hloadq : load_plan_from_db (save_plan_to_db p now db).2
      (save_plan_to_db p now db).1 =
      some { motivation := p.motivation, feedback := p.feedback,
             supplement_suggestion := p.supplement_suggestion,
             plan := ws.map (dictGet weeks) } := by
    rw [hsnd]
    unfold load_plan_from_db
    rw [hfind, hconv]
  have hkeysmem : ∀ k, k ∈ ws ↔ 1 ≤ k ∧ k < 1 + p.plan.length := by
    intro k
    rw [hws_def, mem_sortBy, hweeks_def, keys_foldl_mem srecs [] k]
    simp only [List.map_nil, List.not_mem_nil, false_or]
    rw [(hperm.map Prod.fst).mem_iff]
    exact planRecordsFrom_fst_mem p.plan hwk 1 k
  have hnodup : ws.Nodup := by
    rw [hws_def]
    exact (sortBy_perm _ _).nodup_iff.mpr
      (keys_foldl_nodup srecs [] (by simp))
  have hsorted : ws.Pairwise (fun a b => a ≤ b) := by
    rw [hws_def]
    exact (pairwise_sortBy
      (fun a b c h1 h2 => by simp only [decide_eq_true_eq] at *; omega)
      (fun a b => by simp only [Bool.or_eq_true, decide_eq_true_eq]; omega)
      _).imp (by simp)
  have hwseq : ws = List.range' 1 p.plan.length := by
    refine List.eq_of_perm_of_sorted
      ((List.perm_ext_iff_of_nodup hnodup (List.nodup_range' 1 _)).mpr ?_)
      hsorted (List.pairwise_le_range' 1 _)
    intro a
    rw [hkeysmem a, List.mem_range']
    constructor
    · intro h
      exact ⟨a - 1, by omega, by omega⟩
    · rintro ⟨i, hi, rfl⟩
      omega
  refine ⟨_, hloadq, rfl, rfl, rfl, ?_, ?_⟩
  · simp only [hwseq, List.length_map, List.length_range']
  · intro i h1 h2 d
    have hget : (ws.map (dictGet weeks)).get ⟨i, h1⟩ =
        (srecs.filter (fun r => r.1 == 1 + i)).map Prod.snd := by
      have hplan2 : ws.map (dictGet weeks) =
          (List.range' 1 p.plan.length).map
            (fun k => (srecs.filter (fun r => r.1 == k)).map Prod.snd) := by
        rw [List.map_congr_left (fun k hk => by
          rw [hweeks_def, dictGet_foldl srecs [] k, dictGet_nil,
            List.nil_append])]
        rw [hwseq]
      rw [List.get_of_eq hplan2]
      simp [List.get_eq_getElem, List.getElem_map, List.getElem_range']
    have hpr : (planRecords p).filter (fun r => r.1 == 1 + i) =
        (p.plan.get ⟨i, h2⟩).map (fun d => (1 + i, d)) := by
      unfold planRecords
      exact planRecordsFrom_filter p.plan 1 i h2
    have hpermi := (hperm.filter (fun r => r.1 == 1 + i)).map Prod.snd
    rw [hpr] at hpermi
    rw [hget]
    rw [hpermi.mem_iff]
    simp [List.map_map, Function.comp]

/-- Closed witness for C1: saving and reloading a two-week plan whose first
week's days are not in label order. -/
theorem claim_C1_witness :
    ∃ q, load_plan_from_db (save_plan_to_db planC1 9 emptyDB).2
        (save_plan_to_db planC1 9 emptyDB).1 = some q ∧
      q.motivation = planC1.motivation ∧ q.feedback = planC1.feedback ∧
      q.supplement_suggestion = planC1.supplement_suggestion ∧
      q.plan.length = planC1.plan.length ∧
      ∀ i (h1 : i < q.plan.length) (h2 : i < planC1.plan.length)
        (d : DailyPlan),
        d ∈ q.plan.get ⟨i, h1⟩ ↔ d ∈ planC1.plan.get ⟨i, h2⟩ :=
  claim_C1_save_load_round_trip planC1 9 emptyDB
    (by refine ⟨?_, ?_, ?_⟩ <;> simp [emptyDB]) (by decide)
